import Mathlib

/-!
# Lottery Draw & Payout Engine — verification development

Shallow embedding of the lottery core of the Gamble-Limited casino platform
(`app/core/games/lottery.py`, `app/core/database.py`, `app/routers/api.py`,
`app/core/scheduler.py`) together with theorems settling the behavioural
claims about it.

Conventions of the embedding:
* monetary amounts (Python floats) are modelled as rationals `ℚ`;
* the SQLite tables are modelled as in-memory lists / association lists;
* user balances are a function `Nat → ℚ` (cash only — all lottery flows use
  the cash currency);
* every random outcome consumed by the code is passed in explicitly as an
  argument (the generated winning numbers, the `random.random()` roll used
  for the forced winner, the index produced by `random.choice`, and the
  `secrets.randbelow(10^12)` outcome behind `TrueRNG.random_float`);
* wall-clock reads (`datetime.now()`) are passed in explicitly where the
  behaviour depends on them.
-/

namespace GambleLimited

/-- Lottery configuration. Field defaults are the fall-back values hard-coded
in `LotterySystem._get_config` accessors (`ticket_price` 50, 100 tickets per
user, pick 6 of 1..49, initial jackpot 10000, progressive odds enabled with a
guaranteed winner after 2 months and a 0.5 month-1 boost). -/
structure Config where
  ticket_price : ℚ := 50
  max_tickets_per_user : Nat := 100
  numbers_to_pick : Nat := 6
  number_range_max : Int := 49
  initial_jackpot : ℚ := 10000
  enabled : Bool := true
  progressive_enabled : Bool := true
  force_winner_after_months : Nat := 2
  month_1_no_winner_boost : ℚ := 1/2
deriving Repr

/-- Prize type strings from `LotterySystem.calculate_prize`. -/
inductive PrizeType where
  | jackpot
  | cash
  | freeTicket
  | nonePrize
deriving DecidableEq, Repr

/-- The dict returned by `LotterySystem.calculate_prize`. -/
structure Prize where
  prize_type : PrizeType
  amount : ℚ
deriving DecidableEq, Repr

/-- `LotterySystem.calculate_prize` with the default prize-tier table
`{"6": "jackpot", "5": 5000, "4": 500, "3": 25, "2": "free_ticket"}`:
unmapped match counts yield `none` with amount 0. (`matches` is a Lean
keyword, so the parameter is named `matchCount`.) -/
def calculate_prize (matchCount : Nat) (jackpot_amount : ℚ) : Prize :=
  match matchCount with
  | 6 => ⟨PrizeType.jackpot, jackpot_amount⟩
  | 5 => ⟨PrizeType.cash, 5000⟩
  | 4 => ⟨PrizeType.cash, 500⟩
  | 3 => ⟨PrizeType.cash, 25⟩
  | 2 => ⟨PrizeType.freeTicket, 0⟩
  | _ => ⟨PrizeType.nonePrize, 0⟩

/-- `LotterySystem.calculate_matches`: `len(set(ticket) & set(winning))`. -/
def calculate_matches (ticket_numbers winning_numbers : List Int) : Nat :=
  (ticket_numbers.dedup.filter (fun n => winning_numbers.contains n)).length

/-- The dict returned by `LotterySystem.validate_numbers`. -/
structure VResult where
  valid : Bool
  error : Option String := Option.none
deriving DecidableEq, Repr

/-- `LotterySystem.validate_numbers`: wrong count, then duplicates, then the
per-element integer range check `1 ≤ n ≤ max_number`, with the exact error
messages of the source. The Python `len(set(numbers)) != len(numbers)`
duplicate test is rendered with `List.dedup`. -/
def validate_numbers (cfg : Config) (numbers : List Int) : VResult :=
  let pick_count := cfg.numbers_to_pick
  let max_num := cfg.number_range_max
  if numbers.length ≠ pick_count then
    ⟨false, some ("Must pick exactly " ++ toString pick_count ++ " numbers")⟩
  else if numbers.dedup.length ≠ numbers.length then
    ⟨false, some "Duplicate numbers not allowed"⟩
  else if numbers.any (fun n => n < 1 || n > max_num) then
    ⟨false, some ("Numbers must be between 1 and " ++ toString max_num)⟩
  else ⟨true, Option.none⟩

/-- C9: `validate_numbers` is valid iff the list has exactly `pick_count`
pairwise-distinct elements all in `[1, max_number]`; each failure reports the
corresponding error message. -/
theorem validate_numbers_iff (cfg : Config) (numbers : List Int) :
    ((validate_numbers cfg numbers).valid = true ↔
      numbers.length = cfg.numbers_to_pick ∧ numbers.Nodup ∧
        ∀ n ∈ numbers, 1 ≤ n ∧ n ≤ cfg.number_range_max) ∧
    (numbers.length ≠ cfg.numbers_to_pick →
      (validate_numbers cfg numbers).error =
        some ("Must pick exactly " ++ toString cfg.numbers_to_pick ++ " numbers")) ∧
    (numbers.length = cfg.numbers_to_pick → ¬ numbers.Nodup →
      (validate_numbers cfg numbers).error = some "Duplicate numbers not allowed") ∧
    (numbers.length = cfg.numbers_to_pick → numbers.Nodup →
      ¬ (∀ n ∈ numbers, 1 ≤ n ∧ n ≤ cfg.number_range_max) →
      (validate_numbers cfg numbers).error =
        some ("Numbers must be between 1 and " ++ toString cfg.number_range_max)) := by
  have hdedup : (numbers.dedup.length = numbers.length) ↔ numbers.Nodup := by
    constructor
    · intro h
      have hd : numbers.dedup = numbers := numbers.dedup_sublist.eq_of_length h
      exact hd ▸ numbers.nodup_dedup
    · intro h
      rw [List.dedup_eq_self.mpr h]
  have hrange : (numbers.any (fun n => n < 1 || n > cfg.number_range_max) = false) ↔
      ∀ n ∈ numbers, 1 ≤ n ∧ n ≤ cfg.number_range_max := by
    rw [List.any_eq_false]
    constructor
    · intro h n hn
      have hh := h n hn
      simp only [Bool.or_eq_true, decide_eq_true_eq, not_or, not_lt] at hh
      exact ⟨hh.1, hh.2⟩
    · intro h n hn
      simp only [Bool.or_eq_true, decide_eq_true_eq, not_or, not_lt]
      exact h n hn
  have hrange' : ¬ (∀ n ∈ numbers, 1 ≤ n ∧ n ≤ cfg.number_range_max) →
      (numbers.any (fun n => n < 1 || n > cfg.number_range_max)) = true := by
    intro h3
    rcases Bool.eq_false_or_eq_true
        (numbers.any (fun n => n < 1 || n > cfg.number_range_max)) with hany | hany
    · exact hany
    · exact absurd (hrange.mp hany) h3
  have e1 : numbers.length ≠ cfg.numbers_to_pick →
      validate_numbers cfg numbers =
        ⟨false, some ("Must pick exactly " ++ toString cfg.numbers_to_pick ++ " numbers")⟩ := by
    intro h1
    unfold validate_numbers
    rw [if_pos h1]
  have e2 : numbers.length = cfg.numbers_to_pick → ¬ numbers.Nodup →
      validate_numbers cfg numbers = ⟨false, some "Duplicate numbers not allowed"⟩ := by
    intro h1 h2
    unfold validate_numbers
    rw [if_neg (fun h => h h1), if_pos (fun h => h2 (hdedup.mp h))]
  have e3 : numbers.length = cfg.numbers_to_pick → numbers.Nodup →
      ¬ (∀ n ∈ numbers, 1 ≤ n ∧ n ≤ cfg.number_range_max) →
      validate_numbers cfg numbers =
        ⟨false, some ("Numbers must be between 1 and " ++ toString cfg.number_range_max)⟩ := by
    intro h1 h2 h3
    unfold validate_numbers
    rw [if_neg (fun h => h h1), if_neg (fun h => h (hdedup.mpr h2)), if_pos (hrange' h3)]
  have e4 : numbers.length = cfg.numbers_to_pick → numbers.Nodup →
      (∀ n ∈ numbers, 1 ≤ n ∧ n ≤ cfg.number_range_max) →
      validate_numbers cfg numbers = ⟨true, Option.none⟩ := by
    intro h1 h2 h3
    unfold validate_numbers
    rw [if_neg (fun h => h h1), if_neg (fun h => h (hdedup.mpr h2)),
      if_neg (by rw [hrange.mpr h3]; simp)]
  refine ⟨?_, fun h1 => by rw [e1 h1], fun h1 h2 => by rw [e2 h1 h2],
    fun h1 h2 h3 => by rw [e3 h1 h2 h3]⟩
  constructor
  · intro hv
    by_cases h1 : numbers.length = cfg.numbers_to_pick
    · by_cases h2 : numbers.Nodup
      · by_cases h3 : ∀ n ∈ numbers, 1 ≤ n ∧ n ≤ cfg.number_range_max
        · exact ⟨h1, h2, h3⟩
        · rw [e3 h1 h2 h3] at hv
          exact absurd hv (by simp)
      · rw [e2 h1 h2] at hv
        exact absurd hv (by simp)
    · rw [e1 h1] at hv
      exact absurd hv (by simp)
  · rintro ⟨h1, h2, h3⟩
    rw [e4 h1 h2 h3]

/-- Witness for C9: the duplicate list `[1,2,3,4,5,5]` reports the duplicate
error under the default configuration. -/
theorem validate_numbers_iff_witness :
    (validate_numbers {} [1, 2, 3, 4, 5, 5]).error = some "Duplicate numbers not allowed" :=
  (validate_numbers_iff {} [1, 2, 3, 4, 5, 5]).2.2.1 (by decide) (by decide)

/-! ## Persistent state

Models the SQLite tables touched by the lottery subsystem: `lottery_tickets`,
`users.cash` (through `Database.update_balance` with `cash_delta`),
`lottery_jackpot` (the singleton row id 1), `lottery_draws`,
`lottery_coin_flips` and `lottery_installments`. -/

/-- One `lottery_tickets` row. -/
structure Ticket where
  id : Nat
  user_id : Nat
  draw_id : String
  numbers : List Int
deriving DecidableEq, Repr

/-- One entry of the `winners` list built by `LotterySystem.perform_draw`
(`winner_data`). The optional `note` is present exactly on forced
progressive winners. -/
structure Winner where
  user_id : Nat
  ticket_id : Nat
  matchCount : Nat
  prize_type : PrizeType
  amount : ℚ
  note : Option String := Option.none
deriving DecidableEq, Repr

/-- One `lottery_draws` row (the `draw_date` timestamp column, which is only
written and never read by the modelled code, is not tracked). -/
structure DrawRow where
  status : String
  winning_numbers : Option (List Int)
  winners : Option (List Winner)
  jackpot_amount : ℚ
  no_winner_streak : Nat
deriving DecidableEq, Repr

/-- One `lottery_coin_flips` row.  `user1_agreed`/`user2_agreed` use the
source encoding 0 = undecided, 1 = agreed, -1 = declined.  `expires_at` is
the comparison key of the expiry instant. -/
structure CoinFlip where
  id : Nat
  draw_id : String
  user1_id : Nat
  user2_id : Nat
  user1_agreed : Int
  user2_agreed : Int
  status : String
  winner_id : Option Nat
  expires_at : Nat
deriving DecidableEq, Repr

/-- One `lottery_installments` row (payment dates are settled separately by
the calendar model below). -/
structure Installment where
  id : Nat
  user_id : Nat
  draw_id : String
  total_amount : ℚ
  per_payment : ℚ
  payments_remaining : Nat
  paid_amount : ℚ
deriving DecidableEq, Repr

/-- The lottery-relevant persistent state. -/
structure St where
  tickets : List Ticket
  cash : Nat → ℚ
  jackpot_amount : ℚ
  no_winner_months : Nat
  draws : List (String × DrawRow)
  coin_flips : List CoinFlip
  installments : List Installment

/-- `Database.update_balance` restricted to its `cash_delta` use. -/
def update_balance (cash : Nat → ℚ) (user : Nat) (delta : ℚ) : Nat → ℚ :=
  fun u => if u = user then cash u + delta else cash u

/-- `Database.update_lottery_jackpot`: `delta` takes precedence over
`amount`; omitted arguments leave the corresponding column unchanged. -/
def update_lottery_jackpot (s : St) (amount : Option ℚ) (delta : Option ℚ)
    (no_winner_months : Option Nat) : St :=
  let new_amount :=
    match delta, amount with
    | some d, _ => s.jackpot_amount + d
    | Option.none, some a => a
    | Option.none, Option.none => s.jackpot_amount
  { s with jackpot_amount := new_amount,
           no_winner_months := no_winner_months.getD s.no_winner_months }

/-- `Database.record_lottery_draw`: an SQL `UPDATE ... WHERE draw_id = ?`
over `lottery_draws` (no insert), always returning `success = true`. -/
def record_lottery_draw (s : St) (draw_id : String) (winning_numbers : List Int)
    (winners : List Winner) (jackpot_amount : ℚ) (no_winner_streak : Nat) : St × Bool :=
  ({ s with draws := s.draws.map (fun p =>
      if p.1 = draw_id then
        (p.1, { p.2 with status := "completed",
                         winning_numbers := some winning_numbers,
                         winners := some winners,
                         jackpot_amount := jackpot_amount,
                         no_winner_streak := no_winner_streak })
      else p) },
   true)

/-- `Database.create_lottery_draw`: `INSERT OR IGNORE` of a pending row
snapshotting the current jackpot. -/
def create_lottery_draw (s : St) (draw_id : String) : St :=
  if (s.draws.lookup draw_id).isSome then s
  else { s with draws := s.draws ++
    [(draw_id, ⟨"pending", Option.none, Option.none, s.jackpot_amount, 0⟩)] }

/-- `LotterySystem.should_force_winner` (progressive odds). -/
def should_force_winner (cfg : Config) (no_winner_months : Nat) : Bool × ℚ :=
  if !cfg.progressive_enabled then (false, 0)
  else if no_winner_months ≥ cfg.force_winner_after_months then (true, 1)
  else if no_winner_months = 1 then (true, cfg.month_1_no_winner_boost)
  else (false, 0)

/-- The loop body of step 3 of `LotterySystem.perform_draw`: one ticket is
matched against the winning numbers; a non-`none` prize is appended to the
winners list, jackpot-tier tickets are collected into `jackpot_winners`
without any immediate payment, positive cash prizes are credited at once,
and `free_ticket` prizes are credited the ticket price. -/
def drawStep (cfg : Config) (winning_numbers : List Int) (current_jackpot : ℚ)
    (acc : List Winner × List Nat × (Nat → ℚ)) (t : Ticket) :
    List Winner × List Nat × (Nat → ℚ) :=
  let (winners, jws, cash) := acc
  let m := calculate_matches t.numbers winning_numbers
  let prize := calculate_prize m current_jackpot
  match prize.prize_type with
  | PrizeType.nonePrize => (winners, jws, cash)
  | PrizeType.jackpot =>
      (winners ++ [⟨t.user_id, t.id, m, PrizeType.jackpot, prize.amount, Option.none⟩],
       jws ++ [t.user_id], cash)
  | PrizeType.cash =>
      if 0 < prize.amount then
        (winners ++ [⟨t.user_id, t.id, m, PrizeType.cash, prize.amount, Option.none⟩],
         jws, update_balance cash t.user_id prize.amount)
      else
        (winners ++ [⟨t.user_id, t.id, m, PrizeType.cash, prize.amount, Option.none⟩],
         jws, cash)
  | PrizeType.freeTicket =>
      (winners ++ [⟨t.user_id, t.id, m, PrizeType.freeTicket, prize.amount, Option.none⟩],
       jws, update_balance cash t.user_id cfg.ticket_price)

/-- The dict returned by `LotterySystem.perform_draw`. -/
structure DrawResult where
  winners : List Winner
  numbers : List Int
  jackpot : ℚ
deriving DecidableEq, Repr

/-- `LotterySystem.perform_draw`.  The source derives `draw_id` from the
clock via `get_current_draw_id`; here it is an explicit argument.  The random
outcomes are arguments: `winning_numbers` (result of
`generate_winning_numbers`), `roll` (the `random.random()` value compared to
the forced-winner probability) and `pick` (the `random.choice` over the
draw's tickets, as an index taken modulo the ticket count). -/
def performDraw (cfg : Config) (s : St) (draw_id : String)
    (winning_numbers : List Int) (roll : ℚ) (pick : Nat) : St × DrawResult :=
  let tickets := s.tickets.filter (fun t => t.draw_id = draw_id)
  let current_jackpot := s.jackpot_amount
  let months := s.no_winner_months
  let acc := tickets.foldl (drawStep cfg winning_numbers current_jackpot) ([], [], s.cash)
  let winners0 := acc.1
  let jws0 := acc.2.1
  let cash1 := acc.2.2
  let sf := should_force_winner cfg months
  let forcedNow : Bool := jws0.isEmpty && sf.1 && !tickets.isEmpty && decide (roll < sf.2)
  let ft := tickets.getD (pick % tickets.length) ⟨0, 0, "", []⟩
  let winners1 :=
    if forcedNow then
      winners0 ++ [⟨ft.user_id, ft.id, 6, PrizeType.jackpot, current_jackpot,
        some "Progressive guaranteed win"⟩]
    else winners0
  let jws1 := if forcedNow then jws0 ++ [ft.user_id] else jws0
  let s1 : St := { s with cash := cash1 }
  let s2 :=
    if jws1.isEmpty then
      update_lottery_jackpot s1 Option.none Option.none (some (months + 1))
    else
      update_lottery_jackpot s1 (some cfg.initial_jackpot) Option.none (some 0)
  let s3 := (record_lottery_draw s2 draw_id winning_numbers winners1 current_jackpot
    (if jws1.isEmpty then months else 0)).1
  (s3, ⟨winners1, winning_numbers, current_jackpot⟩)

/-- Whether a draw result records at least one jackpot-tier winner. -/
def hasJackpotWinner (r : DrawResult) : Bool :=
  r.winners.any (fun w => w.prize_type == PrizeType.jackpot)

/-- Through the ticket loop of `perform_draw`, the winners list contains a
jackpot-tier entry exactly when the `jackpot_winners` list is non-empty. -/
theorem drawStep_jackpot_inv (cfg : Config) (w : List Int) (cj : ℚ) (ts : List Ticket)
    (acc : List Winner × List Nat × (Nat → ℚ))
    (h : acc.1.any (fun x => x.prize_type == PrizeType.jackpot) = !acc.2.1.isEmpty) :
    (ts.foldl (drawStep cfg w cj) acc).1.any (fun x => x.prize_type == PrizeType.jackpot)
      = !(ts.foldl (drawStep cfg w cj) acc).2.1.isEmpty := by
  induction ts generalizing acc with
  | nil => exact h
  | cons t ts ih =>
    rw [List.foldl_cons]
    apply ih
    obtain ⟨ws, jws, cash⟩ := acc
    simp only [drawStep]
    split
    · exact h
    · simp [List.any_append]
    · split_ifs <;> simp [List.any_append, beq_iff_eq, h]
    · simp [List.any_append, beq_iff_eq, h]

/-- C5: a `perform_draw` invocation recording no jackpot winner bumps
`no_winner_months` by exactly one and leaves `current_amount` untouched;
an invocation recording at least one jackpot winner (organic or forced)
resets the pool to the configured initial jackpot and the streak to 0. -/
theorem perform_draw_pool_update (cfg : Config) (s : St) (draw_id : String)
    (w : List Int) (roll : ℚ) (pick : Nat) :
    (hasJackpotWinner (performDraw cfg s draw_id w roll pick).2 = false →
      (performDraw cfg s draw_id w roll pick).1.no_winner_months = s.no_winner_months + 1 ∧
      (performDraw cfg s draw_id w roll pick).1.jackpot_amount = s.jackpot_amount) ∧
    (hasJackpotWinner (performDraw cfg s draw_id w roll pick).2 = true →
      (performDraw cfg s draw_id w roll pick).1.jackpot_amount = cfg.initial_jackpot ∧
      (performDraw cfg s draw_id w roll pick).1.no_winner_months = 0) := by
  have base := drawStep_jackpot_inv cfg w s.jackpot_amount
    (s.tickets.filter (fun t => t.draw_id = draw_id)) ([], [], s.cash) (by simp)
  simp only [performDraw, hasJackpotWinner, record_lottery_draw, update_lottery_jackpot]
  split_ifs with hf he he <;>
    simp_all [List.any_append, List.isEmpty_eq_true, List.append_ne_nil_of_right_ne_nil]

/-- An empty reference state used to instantiate the general theorems. -/
def stEmpty : St :=
  { tickets := [], cash := fun _ => 0, jackpot_amount := 10000, no_winner_months := 0,
    draws := [], coin_flips := [], installments := [] }

/-- Witness for C5: on a draw with no tickets (hence no jackpot winner) the
streak goes from 0 to 1 and the pool stays at 10000. -/
theorem perform_draw_pool_update_witness :
    (performDraw {} stEmpty "2025-01" [1, 2, 3, 4, 5, 6] 1 0).1.no_winner_months = 1 ∧
    (performDraw {} stEmpty "2025-01" [1, 2, 3, 4, 5, 6] 1 0).1.jackpot_amount = 10000 := by
  have h := (perform_draw_pool_update {} stEmpty "2025-01" [1, 2, 3, 4, 5, 6] 1 0).1
    (by decide)
  exact ⟨h.1, h.2⟩

/-- A state whose draw `"2025-01"` is already recorded as completed (with an
empty recorded winner list), and which still holds one ticket for that draw
whose numbers will match 3 of the winning numbers `[1,2,3,10,11,12]`. -/
def c1State : St :=
  { tickets := [⟨101, 1, "2025-01", [1, 2, 3, 4, 5, 6]⟩],
    cash := fun _ => 100,
    jackpot_amount := 50000,
    no_winner_months := 0,
    draws := [("2025-01", ⟨"completed", some [9, 10, 11, 12, 13, 14], some [], 50000, 0⟩)],
    coin_flips := [],
    installments := [] }

/-- C1 (code bug): `perform_draw` has no idempotency guard.  On a state whose
`Draw` record for the id is already `completed`, a repeated invocation still
credits the ticket's cash prize to the owner's ledger again, bumps the
jackpot pool's streak, and returns freshly computed results instead of the
already-recorded (empty) winner list — it is not a no-op. -/
theorem perform_draw_not_idempotent :
    (c1State.draws.lookup "2025-01").map (fun r => r.status) = some "completed" ∧
    c1State.cash 1 = 100 ∧
    (performDraw {} c1State "2025-01" [1, 2, 3, 10, 11, 12] 1 0).1.cash 1 = 125 ∧
    (performDraw {} c1State "2025-01" [1, 2, 3, 10, 11, 12] 1 0).1.no_winner_months = 1 ∧
    (performDraw {} c1State "2025-01" [1, 2, 3, 10, 11, 12] 1 0).2.winners =
      [⟨1, 101, 3, PrizeType.cash, 25, Option.none⟩] ∧
    (c1State.draws.lookup "2025-01").map (fun r => r.winners) = some (some []) := by
  refine ⟨by rfl, by rfl, ?_, by rfl, by rfl, by rfl⟩
  show (100 : ℚ) + 25 = 125
  norm_num

/-- A state holding two tickets for draw `"2025-02"`, owned by users 1 and 2,
both picking the numbers that will be drawn. -/
def c2State : St :=
  { tickets := [⟨201, 1, "2025-02", [1, 2, 3, 4, 5, 6]⟩,
                ⟨202, 2, "2025-02", [1, 2, 3, 4, 5, 6]⟩],
    cash := fun _ => 100,
    jackpot_amount := 120000,
    no_winner_months := 0,
    draws := [("2025-02", ⟨"pending", Option.none, Option.none, 120000, 0⟩)],
    coin_flips := [],
    installments := [] }

/-- A state holding a single jackpot-winning ticket for draw `"2025-03"`. -/
def c2aState : St :=
  { tickets := [⟨301, 1, "2025-03", [1, 2, 3, 4, 5, 6]⟩],
    cash := fun _ => 100,
    jackpot_amount := 120000,
    no_winner_months := 0,
    draws := [("2025-03", ⟨"pending", Option.none, Option.none, 120000, 0⟩)],
    coin_flips := [],
    installments := [] }

/-- C2 (code bug): with exactly two jackpot winners `perform_draw` records
both, resets the pool, but creates no `CoinFlipRequest` (the coin-flip table
is untouched) and credits neither owner; and with exactly one jackpot winner
nothing is routed to the payout planner either — no installment plan is
created and no ledger credit happens, so the jackpot is simply never paid. -/
theorem perform_draw_jackpot_routing_missing :
    (performDraw {} c2State "2025-02" [1, 2, 3, 4, 5, 6] 1 0).2.winners.countP
      (fun w => w.prize_type == PrizeType.jackpot) = 2 ∧
    (performDraw {} c2State "2025-02" [1, 2, 3, 4, 5, 6] 1 0).1.coin_flips = [] ∧
    (performDraw {} c2State "2025-02" [1, 2, 3, 4, 5, 6] 1 0).1.installments = [] ∧
    (performDraw {} c2State "2025-02" [1, 2, 3, 4, 5, 6] 1 0).1.cash = c2State.cash ∧
    (performDraw {} c2State "2025-02" [1, 2, 3, 4, 5, 6] 1 0).1.jackpot_amount = 10000 ∧
    (performDraw {} c2aState "2025-03" [1, 2, 3, 4, 5, 6] 1 0).2.winners.countP
      (fun w => w.prize_type == PrizeType.jackpot) = 1 ∧
    (performDraw {} c2aState "2025-03" [1, 2, 3, 4, 5, 6] 1 0).1.installments = [] ∧
    (performDraw {} c2aState "2025-03" [1, 2, 3, 4, 5, 6] 1 0).1.cash = c2aState.cash := by
  refine ⟨by rfl, by rfl, by rfl, by rfl, by rfl, by rfl, by rfl, by rfl⟩

/-! ## Ticket purchase (`lottery_buy` endpoint + `Database.buy_lottery_ticket`) -/

/-- Outcome of the `POST /games/lottery/buy` endpoint.  `insufficientCash`
and `ok` are the returns the source text intends on the funds-check and
success paths, but those paths are unreachable (see `lotteryBuy`);
`typeError` is the uncaught exception every request actually hits there. -/
inductive BuyResult where
  | disabled
  | invalid (error : String)
  | limitReached
  | insufficientCash
  | ok (ticket_id : Nat) (numbers : List Int)
  | typeError
deriving DecidableEq, Repr

/-- `Database.get_user_ticket_count`. -/
def get_user_ticket_count (s : St) (user : Nat) (draw_id : String) : Nat :=
  (s.tickets.filter (fun t => t.user_id = user && t.draw_id = draw_id)).length

/-- The `lottery_buy` endpoint (`app/routers/api.py`): enabled check, number
validation, per-draw quota — and then the funds check crashes.
`EconomySystem.get_balance` is an `async def`, and the endpoint calls it
without `await` (`balance = economy.get_balance(user_id)`), so `balance` is
a coroutine object and the very next line `balance["cash"] < price` raises
`TypeError: 'coroutine' object is not subscriptable`.  The exception is not
caught, so the request fails with no state change; the cash debit, the 40%
jackpot contribution and the ticket insert that follow in the source are
dead code — no purchase ever succeeds through this endpoint.  The source
derives `draw_id` from the clock via `get_current_draw_id`; here it is an
explicit argument. -/
def lotteryBuy (cfg : Config) (s : St) (user : Nat) (numbers : List Int)
    (draw_id : String) : St × BuyResult :=
  if !cfg.enabled then (s, BuyResult.disabled)
  else if !(validate_numbers cfg numbers).valid then
    (s, BuyResult.invalid ((validate_numbers cfg numbers).error.getD ""))
  else if cfg.max_tickets_per_user ≤ get_user_ticket_count s user draw_id then
    (s, BuyResult.limitReached)
  else (s, BuyResult.typeError)

/-- A state whose only draw record, `"2025-01"`, is already completed, with a
buyer holding enough cash. -/
def c6State : St :=
  { tickets := [],
    cash := fun _ => 100,
    jackpot_amount := 10000,
    no_winner_months := 0,
    draws := [("2025-01", ⟨"completed", some [1, 2, 3, 4, 5, 6], some [], 10000, 0⟩)],
    coin_flips := [],
    installments := [] }

/-- C6: a purchase request for a draw id whose Draw record is already
`completed` is rejected: no ticket row is created, the buyer's cash is not
debited, and the jackpot pool is not incremented — so no ticket sold after
draw completion is ever considered.  (The rejection is not a draw-status
check, which the code lacks: a request that passes the enabled, validation
and quota checks dies with the unawaited-coroutine `TypeError` of the funds
check before any state change, so in fact every purchase is rejected.) -/
theorem buy_completed_draw_rejected (cfg : Config) (s : St) (user : Nat)
    (numbers : List Int) (draw_id : String) (row : DrawRow)
    (_hrow : s.draws.lookup draw_id = some row) (_hst : row.status = "completed") :
    (lotteryBuy cfg s user numbers draw_id).1.tickets = s.tickets ∧
    (lotteryBuy cfg s user numbers draw_id).1.cash = s.cash ∧
    (lotteryBuy cfg s user numbers draw_id).1.jackpot_amount = s.jackpot_amount ∧
    (∀ tid ns, (lotteryBuy cfg s user numbers draw_id).2 ≠ BuyResult.ok tid ns) ∧
    (cfg.enabled = true → (validate_numbers cfg numbers).valid = true →
      get_user_ticket_count s user draw_id < cfg.max_tickets_per_user →
      (lotteryBuy cfg s user numbers draw_id).2 = BuyResult.typeError) := by
  unfold lotteryBuy
  split_ifs with h1 h2 h3
  · exact ⟨rfl, rfl, rfl, fun tid ns => by simp,
      fun he _ _ => by rw [he] at h1; simp at h1⟩
  · exact ⟨rfl, rfl, rfl, fun tid ns => by simp,
      fun _ hv _ => by rw [hv] at h2; simp at h2⟩
  · exact ⟨rfl, rfl, rfl, fun tid ns => by simp,
      fun _ _ hq => absurd h3 (not_le.mpr hq)⟩
  · exact ⟨rfl, rfl, rfl, fun tid ns => by simp, fun _ _ _ => rfl⟩

/-- Witness for C6 at the completed-draw state: the well-formed purchase ends
in the `TypeError` and the ticket table is unchanged. -/
theorem buy_completed_draw_rejected_witness :
    (lotteryBuy {} c6State 1 [1, 2, 3, 4, 5, 6] "2025-01").1.tickets = c6State.tickets ∧
    (lotteryBuy {} c6State 1 [1, 2, 3, 4, 5, 6] "2025-01").2 = BuyResult.typeError := by
  have h := buy_completed_draw_rejected {} c6State 1 [1, 2, 3, 4, 5, 6] "2025-01"
    ⟨"completed", some [1, 2, 3, 4, 5, 6], some [], 10000, 0⟩ (by rfl) rfl
  exact ⟨h.1, h.2.2.2.2 rfl (by decide) (by decide)⟩

/-! ## The jackpot-pool invariant (interleaved purchases and draws) -/

/-- One operation of the interleaving considered by the invariant: a ticket
purchase (`lottery_buy`) or a draw execution (`perform_draw`). -/
inductive Op where
  | buy (user : Nat) (numbers : List Int) (draw_id : String)
  | draw (draw_id : String) (winning_numbers : List Int) (roll : ℚ) (pick : Nat)

/-- State transition of one operation. -/
def lotteryStep (cfg : Config) (s : St) : Op → St
  | Op.buy user numbers draw_id => (lotteryBuy cfg s user numbers draw_id).1
  | Op.draw draw_id w roll pick => (performDraw cfg s draw_id w roll pick).1

/-- Each single purchase or draw preserves non-negativity of the pool. -/
theorem lotteryStep_jackpot_nonneg (cfg : Config) (_hp : 0 ≤ cfg.ticket_price)
    (hi : 0 ≤ cfg.initial_jackpot) (s : St) (hs : 0 ≤ s.jackpot_amount) (op : Op) :
    0 ≤ (lotteryStep cfg s op).jackpot_amount := by
  cases op with
  | buy user numbers draw_id =>
      simp only [lotteryStep, lotteryBuy]
      split_ifs <;> exact hs
  | draw draw_id w roll pick =>
      simp only [lotteryStep, performDraw, record_lottery_draw, update_lottery_jackpot]
      split_ifs <;> simp <;> assumption

/-- C4: starting from a non-negative pool, with a non-negative ticket price
and initial jackpot (the contribution percentage is the hard-coded
non-negative 40%), the pool stays non-negative across every interleaved
sequence of ticket purchases and draw executions. -/
theorem jackpot_never_negative (cfg : Config) (hp : 0 ≤ cfg.ticket_price)
    (hi : 0 ≤ cfg.initial_jackpot) (s : St) (hs : 0 ≤ s.jackpot_amount) (ops : List Op) :
    0 ≤ (ops.foldl (lotteryStep cfg) s).jackpot_amount := by
  induction ops generalizing s with
  | nil => exact hs
  | cons op ops ih => exact ih _ (lotteryStep_jackpot_nonneg cfg hp hi s hs op)

/-- Witness for C4: a purchase followed by a no-winner draw from the default
initial state keeps the pool non-negative. -/
theorem jackpot_never_negative_witness :
    0 ≤ (([Op.buy 1 [1, 2, 3, 4, 5, 6] "2025-01",
           Op.draw "2025-01" [7, 8, 9, 10, 11, 12] 1 0].foldl
            (lotteryStep {}) stEmpty)).jackpot_amount :=
  jackpot_never_negative {} (by norm_num) (by norm_num) stEmpty
    (by norm_num [stEmpty]) _

/-! ## `record_lottery_draw` on a missing `lottery_draws` row (C10) -/

/-- The keyed update of `record_lottery_draw` is the identity when no row
carries the key.  (The update writes every `DrawRow` field, so the new row is
a constant with respect to the old one.) -/
theorem lookup_map_update (l : List (String × DrawRow)) (d : String)
    (r : DrawRow) (h : l.lookup d = Option.none) :
    l.map (fun p => if p.1 = d then (p.1, r) else p) = l := by
  induction l with
  | nil => rfl
  | cons a l ih =>
      obtain ⟨k, v⟩ := a
      simp only [List.lookup] at h
      by_cases hk : k = d
      · subst hk
        simp at h
      · have hne : (d == k) = false := beq_eq_false_iff_ne.mpr (Ne.symm hk)
        rw [hne] at h
        simp [hk, ih h]

/-- Looking the key up after such a vacuous update still yields nothing. -/
theorem lookup_map_update_none (l : List (String × DrawRow)) (d : String)
    (r : DrawRow) (h : l.lookup d = Option.none) :
    (l.map (fun p => if p.1 = d then (p.1, r) else p)).lookup d = Option.none := by
  rw [lookup_map_update l d r h]
  exact h

/-- C10: when no `lottery_draws` row exists for the id, `record_lottery_draw`
still reports success while its `UPDATE` matches no row and leaves the table
unchanged; and since `perform_draw` never inserts the row itself, a draw
executed before `create_lottery_draw` leaves no record for the id (so nothing
is ever marked `completed` for it and the draw stays re-executable). -/
theorem record_draw_without_row (s : St) (draw_id : String) (w : List Int)
    (winners : List Winner) (jp : ℚ) (streak : Nat)
    (h : s.draws.lookup draw_id = Option.none) :
    (record_lottery_draw s draw_id w winners jp streak).2 = true ∧
    (record_lottery_draw s draw_id w winners jp streak).1 = s ∧
    ∀ cfg wn roll pick,
      ((performDraw cfg s draw_id wn roll pick).1).draws.lookup draw_id = Option.none := by
  refine ⟨rfl, ?_, ?_⟩
  · simp only [record_lottery_draw]
    rw [lookup_map_update _ _ _ h]
  · intro cfg wn roll pick
    simp only [performDraw, record_lottery_draw, update_lottery_jackpot]
    split_ifs <;> exact lookup_map_update_none _ _ _ h

/-- A state holding only a pending record for a different draw id. -/
def c10State : St :=
  { tickets := [],
    cash := fun _ => 0,
    jackpot_amount := 10000,
    no_winner_months := 0,
    draws := [("2025-01", ⟨"pending", Option.none, Option.none, 10000, 0⟩)],
    coin_flips := [],
    installments := [] }

/-- Witness for C10: recording draw `"2025-02"`, which has no row, reports
success and changes nothing. -/
theorem record_draw_without_row_witness :
    (record_lottery_draw c10State "2025-02" [1] [] 0 0).2 = true ∧
    (record_lottery_draw c10State "2025-02" [1] [] 0 0).1 = c10State := by
  have h := record_draw_without_row c10State "2025-02" [1] [] 0 0 (by rfl)
  exact ⟨h.1, h.2.1⟩

/-! ## Coin-flip tie-break (`Database.respond_to_coin_flip`) -/

/-- Result of `POST /games/lottery/coinflip/respond`. -/
inductive FlipResult where
  | notFound
  | alreadyResolved
  | expired
  | notParty
  | completed (winner_id : Nat)
  | declined
  | pending
deriving DecidableEq, Repr

/-- Apply an update to the coin-flip row with the given id. -/
def setFlip (s : St) (request_id : Nat) (f : CoinFlip → CoinFlip) : St :=
  { s with coin_flips := s.coin_flips.map (fun c => if c.id = request_id then f c else c) }

/-- The re-read-and-resolve tail of `respond_to_coin_flip`: after the
agreement column update the row is re-read; if both parties have responded,
either the coin flip runs (both agreed: `rng.random_float() < 0.5` picks
`user1_id`, otherwise `user2_id`; status `completed`) or the request is
marked `declined`.  `randk` is the `secrets.randbelow(10^12)` outcome behind
`TrueRNG.random_float`, so the compared float is `randk / 10^12`. -/
def coinFlipFinish (s : St) (request_id : Nat) (randk : Nat) : St × FlipResult :=
  match s.coin_flips.find? (fun c => c.id = request_id) with
  | Option.none => (s, FlipResult.notFound)
  | some u =>
    if u.user1_agreed ≠ 0 ∧ u.user2_agreed ≠ 0 then
      if u.user1_agreed = 1 ∧ u.user2_agreed = 1 then
        let winner := if (randk : ℚ) / 10 ^ 12 < 1 / 2 then u.user1_id else u.user2_id
        (setFlip s request_id
          (fun c => { c with status := "completed", winner_id := some winner }),
         FlipResult.completed winner)
      else
        (setFlip s request_id (fun c => { c with status := "declined" }),
         FlipResult.declined)
    else (s, FlipResult.pending)

/-- `Database.respond_to_coin_flip`.  `now` is the comparison key of
`datetime.now()` at the call.  Note the source updates only the
`lottery_coin_flips` table: no balance is ever touched. -/
def respondToCoinFlip (s : St) (now : Nat) (request_id : Nat) (user_id : Nat)
    (agreed : Bool) (randk : Nat) : St × FlipResult :=
  match s.coin_flips.find? (fun c => c.id = request_id) with
  | Option.none => (s, FlipResult.notFound)
  | some req =>
    if req.status ≠ "pending" then (s, FlipResult.alreadyResolved)
    else if req.expires_at < now then
      (setFlip s request_id (fun c => { c with status := "expired" }), FlipResult.expired)
    else if user_id = req.user1_id then
      coinFlipFinish
        (setFlip s request_id (fun c => { c with user1_agreed := if agreed then 1 else -1 }))
        request_id randk
    else if user_id = req.user2_id then
      coinFlipFinish
        (setFlip s request_id (fun c => { c with user2_agreed := if agreed then 1 else -1 }))
        request_id randk
    else (s, FlipResult.notParty)

/-- A pending, unexpired coin-flip request between users 1 and 2 for draw
`"2025-02"`, in which user 2 has already agreed; the jackpot pool and both
users' balances are visible in the state. -/
def c3State : St :=
  { tickets := [],
    cash := fun _ => 100,
    jackpot_amount := 120000,
    no_winner_months := 0,
    draws := [],
    coin_flips := [⟨1, "2025-02", 1, 2, 0, 1, "pending", Option.none, 1000⟩],
    installments := [] }

/-- C3 (code bug): when the second party of a pending, unexpired request
responds `agreed`, the code picks a winner 50/50 via `rng.random_float()`
and marks the request `completed` with `winner_id` set — but it credits no
ledger at all: every user's cash is exactly as before (the jackpot amount is
not even accessible to `respond_to_coin_flip`), so the full-jackpot payment
the specification requires never happens.  Both RNG outcomes are shown:
`randk = 0` (float 0.0 < 0.5) resolves to user 1, and
`randk = 5*10^11` (float 0.5) resolves to user 2. -/
theorem respond_coin_flip_pays_nothing :
    (respondToCoinFlip c3State 500 1 1 true 0).2 = FlipResult.completed 1 ∧
    (respondToCoinFlip c3State 500 1 1 true 500000000000).2 = FlipResult.completed 2 ∧
    ((respondToCoinFlip c3State 500 1 1 true 0).1.coin_flips.find?
      (fun c => c.id = 1)).map (fun c => c.status) = some "completed" ∧
    ((respondToCoinFlip c3State 500 1 1 true 0).1.coin_flips.find?
      (fun c => c.id = 1)).map (fun c => c.winner_id) = some (some 1) ∧
    (respondToCoinFlip c3State 500 1 1 true 0).1.cash = c3State.cash ∧
    (respondToCoinFlip c3State 500 1 1 true 500000000000).1.cash = c3State.cash ∧
    (respondToCoinFlip c3State 500 1 1 true 0).1.jackpot_amount = c3State.jackpot_amount ∧
    (respondToCoinFlip c3State 500 1 1 true 0).1.installments = [] := by
  refine ⟨?_, ?_, ?_, ?_, by rfl, by rfl, by rfl, by rfl⟩ <;>
    norm_num [respondToCoinFlip, coinFlipFinish, setFlip, c3State, List.find?]

/-! ## Calendar model

Python's `datetime.date` is the proleptic Gregorian calendar;
`date(1, 1, 1)` has ordinal 1 and is a Monday (`weekday() = 0`).
`weekdayOfOrd` maps a day ordinal to Python's weekday convention
(Monday = 0 … Sunday = 6). -/

/-- Python weekday (Monday = 0) of a proleptic-Gregorian day ordinal. -/
def weekdayOfOrd (o : Nat) : Nat := (o + 6) % 7

/-- Gregorian leap-year rule. -/
def isLeap (y : Nat) : Bool := (y % 4 == 0 && y % 100 != 0) || y % 400 == 0

/-- Days in month `m` of year `y`. -/
def daysInMonth (y m : Nat) : Nat :=
  if m = 2 then (if isLeap y then 29 else 28)
  else if m = 4 ∨ m = 6 ∨ m = 9 ∨ m = 11 then 30
  else 31

/-- Days in months `1 … m-1` of year `y`. -/
def daysBeforeMonth (y : Nat) : Nat → Nat
  | 0 => 0
  | 1 => 0
  | m + 1 => daysBeforeMonth y m + daysInMonth y m

/-- Days before January 1 of year `y` (proleptic Gregorian). -/
def daysBeforeYear (y : Nat) : Nat :=
  let n := y - 1
  365 * n + n / 4 - n / 100 + n / 400

/-- `date(y, m, d).toordinal()`. -/
def ordinalOf (y m d : Nat) : Nat := daysBeforeYear y + daysBeforeMonth y m + d

/-- `date(y, m, d).weekday()`. -/
def weekday (y m d : Nat) : Nat := weekdayOfOrd (ordinalOf y m d)

/-! ## Installment plan creation (`Database.create_lottery_installment`, C7)

The payment instant computed there depends on the creation time only through
the creation date's weekday and a whole number of days added to it, so it is
modelled on `(day ordinal, second of day)` pairs. -/

/-- A point in time as a day ordinal plus a second-of-day. -/
structure Instant where
  ord : Nat
  sec : Nat
deriving DecidableEq, Repr

/-- Total comparison key of an `Instant` (seconds since the epoch). -/
def Instant.key (i : Instant) : Nat := i.ord * 86400 + i.sec

/-- The `days_ahead` dict of `create_lottery_installment`:
`{0: 0, 1: 1, 2: 0, 3: 1, 4: 0, 5: 2, 6: 1}`. -/
def installment_days_ahead (wd : Nat) : Nat :=
  match wd with
  | 0 => 0
  | 1 => 1
  | 2 => 0
  | 3 => 1
  | 4 => 0
  | 5 => 2
  | _ => 1

/-- The whole number of days `create_lottery_installment` adds to `now`:
`next_day = (wd + days_ahead[wd]) % 7`, bumped by 7 when `next_day <= wd`,
and the timedelta is `next_day - wd` days. -/
def installment_delta (wd : Nat) : Nat :=
  let nd0 := (wd + installment_days_ahead wd) % 7
  let nd := if nd0 ≤ wd then nd0 + 7 else nd0
  nd - wd

/-- The `next_payment_date` computed by `create_lottery_installment`:
`now + timedelta(days = installment_delta)`, then the time of day is
replaced by 12:00:00. -/
def next_payment_date (now : Instant) : Instant :=
  ⟨now.ord + installment_delta (weekdayOfOrd now.ord), 12 * 3600⟩

/-- A payment weekday under the default `["monday", "wednesday", "friday"]`
configuration. -/
def isPaymentWeekday (wd : Nat) : Prop := wd = 0 ∨ wd = 2 ∨ wd = 4

/-- C7 counterexample: for a plan created on a Monday afternoon (ordinal 8 is
a Monday; 13:00), the code schedules the *following Monday* noon (ordinal
15), although Wednesday noon (ordinal 10) is a payment-weekday instant that
lies strictly between creation and the chosen date — so the chosen date is
not the nearest upcoming payment weekday strictly after creation. -/
theorem next_payment_monday_not_wednesday :
    weekdayOfOrd 8 = 0 ∧
    next_payment_date ⟨8, 46800⟩ = ⟨15, 43200⟩ ∧
    weekdayOfOrd 10 = 2 ∧
    Instant.key ⟨8, 46800⟩ < Instant.key ⟨10, 43200⟩ ∧
    Instant.key ⟨10, 43200⟩ < Instant.key ⟨15, 43200⟩ := by
  refine ⟨by decide, by decide, by decide, by decide, by decide⟩

/-- C7 amended: the computed `next_payment_date` is always at noon of a
payment weekday strictly after the creation time; when the plan is created on
Tuesday/Thursday/Saturday/Sunday it is the nearest later payment weekday, but
when it is created on a payment weekday itself (Monday/Wednesday/Friday) it
is the same weekday seven days later — in particular a plan created on a
Monday is next paid the following Monday, not the coming Wednesday. -/
theorem next_payment_date_spec (now : Instant) (hs : now.sec < 86400) :
    isPaymentWeekday (weekdayOfOrd (next_payment_date now).ord) ∧
    (next_payment_date now).sec = 43200 ∧
    now.key < (next_payment_date now).key ∧
    (¬ isPaymentWeekday (weekdayOfOrd now.ord) →
      ∀ o, now.ord < o → o < (next_payment_date now).ord →
        ¬ isPaymentWeekday (weekdayOfOrd o)) ∧
    (isPaymentWeekday (weekdayOfOrd now.ord) →
      (next_payment_date now).ord = now.ord + 7) := by
  obtain ⟨od, sec⟩ := now
  have hs' : sec < 86400 := hs
  have h7 : (od + 6) % 7 = 0 ∨ (od + 6) % 7 = 1 ∨ (od + 6) % 7 = 2 ∨ (od + 6) % 7 = 3 ∨
      (od + 6) % 7 = 4 ∨ (od + 6) % 7 = 5 ∨ (od + 6) % 7 = 6 := by omega
  have main : ∀ dv : Nat, installment_delta (weekdayOfOrd od) = dv →
      ((od + dv + 6) % 7 = 0 ∨ (od + dv + 6) % 7 = 2 ∨ (od + dv + 6) % 7 = 4) →
      (∀ o, od < o → o < od + dv →
        ¬ ((o + 6) % 7 = 0 ∨ (o + 6) % 7 = 2 ∨ (o + 6) % 7 = 4) ∨
        ((od + 6) % 7 = 0 ∨ (od + 6) % 7 = 2 ∨ (od + 6) % 7 = 4)) →
      (((od + 6) % 7 = 0 ∨ (od + 6) % 7 = 2 ∨ (od + 6) % 7 = 4) → dv = 7) →
      isPaymentWeekday (weekdayOfOrd (next_payment_date ⟨od, sec⟩).ord) ∧
      (next_payment_date ⟨od, sec⟩).sec = 43200 ∧
      Instant.key ⟨od, sec⟩ < Instant.key (next_payment_date ⟨od, sec⟩) ∧
      (¬ isPaymentWeekday (weekdayOfOrd od) →
        ∀ o, od < o → o < (next_payment_date ⟨od, sec⟩).ord →
          ¬ isPaymentWeekday (weekdayOfOrd o)) ∧
      (isPaymentWeekday (weekdayOfOrd od) →
        (next_payment_date ⟨od, sec⟩).ord = od + 7) := by
    intro dv hd hpw hmin hseven
    have hd1 : 1 ≤ dv := by
      rcases h7 with h | h | h | h | h | h | h <;>
        [ (have he : weekdayOfOrd od = 0 := h); (have he : weekdayOfOrd od = 1 := h);
          (have he : weekdayOfOrd od = 2 := h); (have he : weekdayOfOrd od = 3 := h);
          (have he : weekdayOfOrd od = 4 := h); (have he : weekdayOfOrd od = 5 := h);
          (have he : weekdayOfOrd od = 6 := h) ] <;>
        rw [he] at hd <;> omega
    refine ⟨?_, rfl, ?_, ?_, ?_⟩
    · show isPaymentWeekday (weekdayOfOrd (od + installment_delta (weekdayOfOrd od)))
      rw [hd]
      unfold weekdayOfOrd isPaymentWeekday
      exact hpw
    · show od * 86400 + sec < (od + installment_delta (weekdayOfOrd od)) * 86400 + 12 * 3600
      rw [hd]
      omega
    · intro hnp o h1 h2
      have h1' : od < o := h1
      have h2' : o < od + installment_delta (weekdayOfOrd od) := h2
      rw [hd] at h2'
      unfold weekdayOfOrd isPaymentWeekday at hnp ⊢
      rcases hmin o h1' h2' with hm | hm
      · exact hm
      · exact absurd hm hnp
    · intro hp
      unfold weekdayOfOrd isPaymentWeekday at hp
      show od + installment_delta (weekdayOfOrd od) = od + 7
      rw [hd, hseven hp]
  rcases h7 with h | h | h | h | h | h | h
  · refine main 7 ?_ (by omega) (fun o h1 h2 => Or.inr (by omega)) (fun _ => rfl)
    have he : weekdayOfOrd od = 0 := h
    rw [he]
    decide
  · refine main 1 ?_ (by omega) (fun o h1 h2 => Or.inl (by omega)) (fun hp => by omega)
    have he : weekdayOfOrd od = 1 := h
    rw [he]
    decide
  · refine main 7 ?_ (by omega) (fun o h1 h2 => Or.inr (by omega)) (fun _ => rfl)
    have he : weekdayOfOrd od = 2 := h
    rw [he]
    decide
  · refine main 1 ?_ (by omega) (fun o h1 h2 => Or.inl (by omega)) (fun hp => by omega)
    have he : weekdayOfOrd od = 3 := h
    rw [he]
    decide
  · refine main 7 ?_ (by omega) (fun o h1 h2 => Or.inr (by omega)) (fun _ => rfl)
    have he : weekdayOfOrd od = 4 := h
    rw [he]
    decide
  · refine main 2 ?_ (by omega) (fun o h1 h2 => Or.inl (by omega)) (fun hp => by omega)
    have he : weekdayOfOrd od = 5 := h
    rw [he]
    decide
  · refine main 1 ?_ (by omega) (fun o h1 h2 => Or.inl (by omega)) (fun hp => by omega)
    have he : weekdayOfOrd od = 6 := h
    rw [he]
    decide

/-- Witness for C7's amended statement: a plan created on a Tuesday (ordinal
2) at midnight is next paid on a payment weekday strictly afterwards. -/
theorem next_payment_date_spec_witness :
    isPaymentWeekday (weekdayOfOrd (next_payment_date ⟨2, 0⟩).ord) ∧
    Instant.key ⟨2, 0⟩ < Instant.key (next_payment_date ⟨2, 0⟩) := by
  have h := next_payment_date_spec ⟨2, 0⟩ (by norm_num)
  exact ⟨h.1, h.2.2.1⟩

/-! ## Draw schedule (`LotterySystem.get_next_draw_date`, C8)

The source finds the first Friday of the current month at the configured
`draw_hour`:`draw_minute` (seconds zeroed) and, when `now` is at or past it,
moves to the first Friday of the following month (rolling the year over from
December).  Naive civil time is modelled; datetime comparisons become
comparisons of an injective numeric key. -/

/-- A civil datetime. -/
structure DateTime where
  year : Nat
  month : Nat
  day : Nat
  hour : Nat
  minute : Nat
  second : Nat
deriving DecidableEq, Repr

/-- Injective comparison key: datetime comparison on valid datetimes is
comparison of these keys. -/
def DateTime.key (t : DateTime) : Nat :=
  ((((t.year * 16 + t.month) * 32 + t.day) * 24 + t.hour) * 60 + t.minute) * 60 + t.second

/-- Bounds making the key ordering agree with civil ordering (a day bound of
31 suffices; month-length exactness is not needed). -/
def DateTime.Valid (t : DateTime) : Prop :=
  1 ≤ t.month ∧ t.month ≤ 12 ∧ 1 ≤ t.day ∧ t.day ≤ 31 ∧
    t.hour < 24 ∧ t.minute < 60 ∧ t.second < 60

/-- If `a`'s (year, month) precedes `b`'s, then `a.key < b.key`, for in-range
field values. -/
theorem key_lt_of_month_lt (a b : DateTime)
    (hday : a.day ≤ 31) (hh : a.hour < 24) (hmin : a.minute < 60) (hsec : a.second < 60)
    (hm : a.year * 16 + a.month < b.year * 16 + b.month) (hbday : 1 ≤ b.day) :
    a.key < b.key := by
  unfold DateTime.key
  omega

/-- Day of the first Friday of month `(y, m)`:
`1 + (4 - weekday(y, m, 1)) % 7` with Python's non-negative `%`. -/
def firstFridayDay (y m : Nat) : Nat := 1 + (4 + 7 - weekday y m 1) % 7

/-- The first Friday falls on day 1–7 of the month. -/
theorem firstFridayDay_bounds (y m : Nat) :
    1 ≤ firstFridayDay y m ∧ firstFridayDay y m ≤ 7 := by
  unfold firstFridayDay weekday weekdayOfOrd
  omega

/-- The day computed by `firstFridayDay` is indeed a Friday. -/
theorem weekday_firstFriday (y m : Nat) : weekday y m (firstFridayDay y m) = 4 := by
  unfold firstFridayDay weekday weekdayOfOrd ordinalOf
  omega

/-- The draw instant of month `(y, m)`: its first Friday at `H:Mi:00`. -/
def drawInstant (H Mi y m : Nat) : DateTime := ⟨y, m, firstFridayDay y m, H, Mi, 0⟩

/-- `LotterySystem.get_next_draw_date` (`H`/`Mi` are the configured
`draw_hour`/`draw_minute`; the weekday is the hard-coded Friday): the first
Friday of `now`'s month at `H:Mi`, or — when `now` has reached it — of the
next month, with December rolling into January of the next year. -/
def get_next_draw_date (H Mi : Nat) (now : DateTime) : DateTime :=
  let ff := drawInstant H Mi now.year now.month
  if ff.key ≤ now.key then
    if now.month = 12 then drawInstant H Mi (now.year + 1) 1
    else drawInstant H Mi now.year (now.month + 1)
  else ff

/-- C8: `get_next_draw_date` returns a first-Friday-of-the-month instant at
the configured hour and minute, strictly after `now`, and the earliest such
instant: every month's draw instant lying strictly after `now` is at or
after the returned one.  The roll into the following month (including
December → January of the next year) happens exactly when the current
month's instant is at or before `now`. -/
theorem get_next_draw_date_spec (H Mi : Nat) (hH : H < 24) (hMi : Mi < 60)
    (now : DateTime) (hv : now.Valid) :
    (∃ y m, 1 ≤ m ∧ m ≤ 12 ∧ get_next_draw_date H Mi now = drawInstant H Mi y m) ∧
    weekday (get_next_draw_date H Mi now).year (get_next_draw_date H Mi now).month
      (get_next_draw_date H Mi now).day = 4 ∧
    (get_next_draw_date H Mi now).day ≤ 7 ∧
    now.key < (get_next_draw_date H Mi now).key ∧
    (∀ y m, 1 ≤ m → m ≤ 12 → now.key < (drawInstant H Mi y m).key →
      (get_next_draw_date H Mi now).key ≤ (drawInstant H Mi y m).key) := by
  obtain ⟨hm1, hm12, hd1, hd31, hh, hmin, hsec⟩ := hv
  simp only [get_next_draw_date]
  by_cases hro : (drawInstant H Mi now.year now.month).key ≤ now.key
  · rw [if_pos hro]
    by_cases hdec : now.month = 12
    · rw [if_pos hdec]
      refine ⟨⟨now.year + 1, 1, by norm_num, by norm_num, rfl⟩,
        weekday_firstFriday _ _, (firstFridayDay_bounds _ _).2, ?_, ?_⟩
      · exact key_lt_of_month_lt now (drawInstant H Mi (now.year + 1) 1)
          hd31 hh hmin hsec
          (show now.year * 16 + now.month < (now.year + 1) * 16 + 1 by omega)
          (firstFridayDay_bounds _ _).1
      · intro y m h1 h12 hkey
        rcases Nat.lt_trichotomy (y * 16 + m) (now.year * 16 + now.month) with hc | hc | hc
        · have hlt := key_lt_of_month_lt (drawInstant H Mi y m) now
            (show firstFridayDay y m ≤ 31 from
              le_trans (firstFridayDay_bounds y m).2 (by norm_num))
            hH hMi (show (0 : Nat) < 60 by norm_num)
            (show y * 16 + m < now.year * 16 + now.month from hc) hd1
          omega
        · have hy : y = now.year := by omega
          have hm' : m = now.month := by omega
          subst hy
          subst hm'
          omega
        · by_cases heq : y = now.year + 1 ∧ m = 1
          · obtain ⟨hy, hm'⟩ := heq
            subst hy
            subst hm'
            exact le_refl _
          · exact le_of_lt (key_lt_of_month_lt (drawInstant H Mi (now.year + 1) 1)
              (drawInstant H Mi y m)
              (show firstFridayDay (now.year + 1) 1 ≤ 31 from
                le_trans (firstFridayDay_bounds _ _).2 (by norm_num))
              hH hMi (show (0 : Nat) < 60 by norm_num)
              (show (now.year + 1) * 16 + 1 < y * 16 + m by omega)
              (firstFridayDay_bounds y m).1)
    · rw [if_neg hdec]
      refine ⟨⟨now.year, now.month + 1, by omega, by omega, rfl⟩,
        weekday_firstFriday _ _, (firstFridayDay_bounds _ _).2, ?_, ?_⟩
      · exact key_lt_of_month_lt now (drawInstant H Mi now.year (now.month + 1))
          hd31 hh hmin hsec
          (show now.year * 16 + now.month < now.year * 16 + (now.month + 1) by omega)
          (firstFridayDay_bounds _ _).1
      · intro y m h1 h12 hkey
        rcases Nat.lt_trichotomy (y * 16 + m) (now.year * 16 + now.month) with hc | hc | hc
        · have hlt := key_lt_of_month_lt (drawInstant H Mi y m) now
            (show firstFridayDay y m ≤ 31 from
              le_trans (firstFridayDay_bounds y m).2 (by norm_num))
            hH hMi (show (0 : Nat) < 60 by norm_num)
            (show y * 16 + m < now.year * 16 + now.month from hc) hd1
          omega
        · have hy : y = now.year := by omega
          have hm' : m = now.month := by omega
          subst hy
          subst hm'
          omega
        · by_cases heq : y = now.year ∧ m = now.month + 1
          · obtain ⟨hy, hm'⟩ := heq
            subst hy
            subst hm'
            exact le_refl _
          · exact le_of_lt (key_lt_of_month_lt (drawInstant H Mi now.year (now.month + 1))
              (drawInstant H Mi y m)
              (show firstFridayDay now.year (now.month + 1) ≤ 31 from
                le_trans (firstFridayDay_bounds _ _).2 (by norm_num))
              hH hMi (show (0 : Nat) < 60 by norm_num)
              (show now.year * 16 + (now.month + 1) < y * 16 + m by omega)
              (firstFridayDay_bounds y m).1)
  · rw [if_neg hro]
    push_neg at hro
    refine ⟨⟨now.year, now.month, hm1, hm12, rfl⟩, weekday_firstFriday _ _,
      (firstFridayDay_bounds _ _).2, hro, ?_⟩
    intro y m h1 h12 hkey
    rcases Nat.lt_trichotomy (y * 16 + m) (now.year * 16 + now.month) with hc | hc | hc
    · have hlt := key_lt_of_month_lt (drawInstant H Mi y m) now
        (show firstFridayDay y m ≤ 31 from
          le_trans (firstFridayDay_bounds y m).2 (by norm_num))
        hH hMi (show (0 : Nat) < 60 by norm_num)
        (show y * 16 + m < now.year * 16 + now.month from hc) hd1
      omega
    · have hy : y = now.year := by omega
      have hm' : m = now.month := by omega
      subst hy
      subst hm'
      exact le_refl _
    · exact le_of_lt (key_lt_of_month_lt (drawInstant H Mi now.year now.month)
        (drawInstant H Mi y m)
        (show firstFridayDay now.year now.month ≤ 31 from
          le_trans (firstFridayDay_bounds _ _).2 (by norm_num))
        hH hMi (show (0 : Nat) < 60 by norm_num)
        (show now.year * 16 + now.month < y * 16 + m from hc)
        (firstFridayDay_bounds y m).1)

/-- Witness for C8: from 2025-01-15 10:00:00 the next draw date is strictly
later. -/
theorem get_next_draw_date_spec_witness :
    DateTime.key ⟨2025, 1, 15, 10, 0, 0⟩ <
      (get_next_draw_date 12 0 ⟨2025, 1, 15, 10, 0, 0⟩).key := by
  have h := get_next_draw_date_spec 12 0 (by norm_num) (by norm_num)
    ⟨2025, 1, 15, 10, 0, 0⟩
    ⟨by norm_num, by norm_num, by norm_num, by norm_num, by norm_num, by norm_num,
      by norm_num⟩
  exact h.2.2.2.1

end GambleLimited
